import Mathlib

/-!
Verification of the acoustic-simulator core against its specification.

The development shallowly embeds the JavaScript sources:
- src/AcousticSimulatorPage.jsx (class AcousticAnalyzer): feature extraction
  over 25 ms frames with 10 ms hop (energy, pitch, classification, quality);
- src/fftAnalyzer.js (class FFTAnalyzer): magnitude spectrum utilities and
  peak finding;
- src/acousticCore.js (classes AcousticSimulator and AudioBuffer): the FDTD
  wave solver, its sources, and the audio accumulation buffer.

JavaScript numbers are embedded as rationals; the special values Infinity,
negative Infinity and NaN that the analyzer can produce (division by a zero
maximum, division by a zero lag) are embedded by the inductive type JVal,
whose operations follow IEEE semantics as exposed by JavaScript. Operations
that can throw (Array.prototype.reduce on an empty array with no seed) are
embedded in the Except monad. Transcendental operations (Math.sin, Math.cos,
Math.log10, Math.sqrt) are embedded through the corresponding real functions,
so definitions touching them live over the reals and are marked noncomputable;
everything else is executable.
-/

/-- Embedding of a JavaScript number: a finite value, one of the two
infinities, or NaN. -/
inductive JVal where
  | num (q : ℚ)
  | posInf
  | negInf
  | nan
deriving DecidableEq

namespace JVal

/-- JavaScript addition on embedded numbers. -/
def jadd : JVal → JVal → JVal
  | nan, _ => nan
  | _, nan => nan
  | posInf, negInf => nan
  | negInf, posInf => nan
  | posInf, _ => posInf
  | _, posInf => posInf
  | negInf, _ => negInf
  | _, negInf => negInf
  | num a, num b => num (a + b)

/-- JavaScript division of two finite numbers, with the IEEE results for a
zero divisor: 0/0 is NaN and x/0 carries the sign of x. -/
def jdivQ (a b : ℚ) : JVal :=
  if b = 0 then (if a = 0 then nan else if 0 < a then posInf else negInf)
  else num (a / b)

/-- JavaScript division on embedded numbers. -/
def jdiv : JVal → JVal → JVal
  | nan, _ => nan
  | _, nan => nan
  | posInf, posInf => nan
  | posInf, negInf => nan
  | negInf, posInf => nan
  | negInf, negInf => nan
  | posInf, num b => if 0 ≤ b then posInf else negInf
  | negInf, num b => if 0 ≤ b then negInf else posInf
  | num _, posInf => num 0
  | num _, negInf => num 0
  | num a, num b => jdivQ a b

/-- Math.max on two embedded numbers: NaN propagates, otherwise the larger
argument. -/
def jmax : JVal → JVal → JVal
  | nan, _ => nan
  | _, nan => nan
  | posInf, _ => posInf
  | _, posInf => posInf
  | negInf, b => b
  | a, negInf => a
  | num a, num b => num (max a b)

/-- Math.min on two embedded numbers. -/
def jmin : JVal → JVal → JVal
  | nan, _ => nan
  | _, nan => nan
  | negInf, _ => negInf
  | _, negInf => negInf
  | posInf, b => b
  | a, posInf => a
  | num a, num b => num (min a b)

/-- JavaScript comparison v less than q for a finite right operand; false
when v is NaN. -/
def jltQ : JVal → ℚ → Bool
  | num a, q => decide (a < q)
  | posInf, _ => false
  | negInf, _ => true
  | nan, _ => false

/-- JavaScript comparison v greater than q for a finite right operand; false
when v is NaN. -/
def jgtQ : JVal → ℚ → Bool
  | num a, q => decide (q < a)
  | posInf, _ => true
  | negInf, _ => false
  | nan, _ => false

/-- Math.max applied by spread to a list, as in Math.max(...values): the fold
of pairwise max starting from negative Infinity. -/
def jmaxSpread (l : List JVal) : JVal := l.foldl jmax negInf

/-- Math.min applied by spread to a list. -/
def jminSpread (l : List JVal) : JVal := l.foldl jmin posInf

/-- Array.prototype.reduce with the addition callback and no seed: throws a
TypeError on the empty array, otherwise folds addition from the head. -/
def jsumReduce : List JVal → Except String JVal
  | [] => Except.error "Reduce of empty array with no initial value"
  | h :: t => Except.ok (t.foldl jadd h)

end JVal

namespace AcousticAnalyzer

open JVal

/-- Frame length in samples: Math.floor(sampleRate * 0.025), the 25 ms
analysis frame used by the analyzer. -/
def frameSize (sampleRate : ℚ) : ℕ := (⌊sampleRate * (25 / 1000)⌋).toNat

/-- Hop length in samples: Math.floor(sampleRate * 0.010), the 10 ms hop. -/
def hopSize (sampleRate : ℚ) : ℕ := (⌊sampleRate * (10 / 1000)⌋).toNat

/-- Start indices of the analysis frames: the loop for (i = 0;
i < audioData.length - frameSize; i += hopSize). The count is the number of
multiples of hop lying strictly below length - frameSize. -/
def frameStarts (fs hop len : ℕ) : List ℕ :=
  (List.range ((len - fs + hop - 1) / hop)).map (fun k => k * hop)

/-- The list of 25 ms frames of a clip, each a slice
audioData.slice(i, i + frameSize). -/
def frames (sampleRate : ℚ) (audioData : List ℚ) : List (List ℚ) :=
  (frameStarts (frameSize sampleRate) (hopSize sampleRate) audioData.length).map
    (fun i => (audioData.drop i).take (frameSize sampleRate))

/-- Mean squared amplitude of one frame: the inner loop of analyzeEnergy,
sum of squares divided by frameSize. -/
def frameEnergy (sampleRate : ℚ) (frame : List ℚ) : ℚ :=
  (frame.map (fun s => s * s)).sum / (frameSize sampleRate : ℚ)

/-- Per-frame energies of a clip, before normalization. -/
def energiesOf (sampleRate : ℚ) (audioData : List ℚ) : List ℚ :=
  (frames sampleRate audioData).map (frameEnergy sampleRate)

/-- Result record of analyzeEnergy, without the dB field, which is irrational
in general and embedded separately by energyDB. -/
structure EnergyStats where
  values : List JVal
  mean : JVal
  max : JVal
  min : JVal
deriving DecidableEq

/-- Embedding of AcousticAnalyzer.analyzeEnergy. The energies are normalized
by the clip maximum obtained through Math.max by spread; on a clip producing
no frame, the mean computation reduces an empty array with no seed and the
JavaScript method throws, which surfaces as an error value. -/
def analyzeEnergy (sampleRate : ℚ) (audioData : List ℚ) : Except String EnergyStats :=
  let energy := energiesOf sampleRate audioData
  let maxEnergy := jmaxSpread (energy.map num)
  let normalizedEnergy := energy.map (fun e => jdiv (num e) maxEnergy)
  (jsumReduce normalizedEnergy).map (fun s =>
    { values := normalizedEnergy
      mean := jdiv s (num (normalizedEnergy.length : ℚ))
      max := jmaxSpread normalizedEnergy
      min := jminSpread normalizedEnergy })

/-- Embedding of the dB field of analyzeEnergy, which the source computes as
20 * Math.log10(Math.max(...normalizedEnergy) + 1e-10). It is only read on a
finite maximum; the other constructors correspond to a NaN result in
JavaScript and are mapped to an unused default. -/
noncomputable def energyDB : JVal → ℝ
  | JVal.num q => 20 * Real.logb 10 ((q : ℝ) + 1 / 10 ^ 10)
  | _ => 0

/-- Result record of AcousticAnalyzer.assessQuality. -/
structure Quality where
  score : ℤ
  issues : List String
  isGood : Bool
deriving DecidableEq

/-- Embedding of AcousticAnalyzer.assessQuality: flags too quiet below 0.3
and clipping above 0.95 on the normalized energy maximum, scoring
100 - 20 per issue. -/
def assessQuality (energyMax : JVal) : Quality :=
  let issues :=
    (if jltQ energyMax (3 / 10) then ["too quiet"] else []) ++
    (if jgtQ energyMax (95 / 100) then ["clipping/distortion"] else [])
  { score := 100 - 20 * (issues.length : ℤ)
    issues := issues
    isGood := issues.isEmpty }

end AcousticAnalyzer

namespace AcousticAnalyzer

open JVal

/-- Smallest autocorrelation lag searched by estimatePitch:
Math.floor(sampleRate / 400), the 400 Hz bound. -/
def minLag (sampleRate : ℚ) : ℕ := (⌊sampleRate / 400⌋).toNat

/-- Largest autocorrelation lag searched by estimatePitch:
Math.floor(sampleRate / 50), the 50 Hz bound. -/
def maxLag (sampleRate : ℚ) : ℕ := (⌊sampleRate / 50⌋).toNat

/-- Embedding of AcousticAnalyzer.calculateAutocorrelation: the absolute
normalized autocorrelation of a frame at a given lag, with the 1e-10
epsilon guarding the zero denominator. -/
def calculateAutocorrelation (frame : List ℚ) (lag : ℕ) : ℚ :=
  let n := frame.length - lag
  let numerator := ((List.range n).map (fun i => frame.getD i 0 * frame.getD (i + lag) 0)).sum
  let denominator := ((List.range n).map (fun i =>
    frame.getD i 0 * frame.getD i 0 + frame.getD (i + lag) 0 * frame.getD (i + lag) 0)).sum
  |numerator| / (denominator + 1 / 10 ^ 10)

/-- Best correlation and lag found by the search loop of estimatePitch,
starting from maxCorr = 0 and bestLag = 0 and updating on strictly larger
correlation. -/
def bestLagSearch (sampleRate : ℚ) (frame : List ℚ) : ℚ × ℕ :=
  (List.range' (minLag sampleRate) (maxLag sampleRate - minLag sampleRate)).foldl
    (fun acc lag =>
      let corr := calculateAutocorrelation frame lag
      if acc.1 < corr then (corr, lag) else acc)
    (0, 0)

/-- Embedding of AcousticAnalyzer.estimatePitch: sampleRate divided by the
best lag. A best lag of zero gives the JavaScript value Infinity. -/
def estimatePitch (sampleRate : ℚ) (frame : List ℚ) : JVal :=
  jdivQ sampleRate ((bestLagSearch sampleRate frame).2 : ℚ)

/-- Result record of analyzePitch. -/
structure PitchStats where
  values : List JVal
  mean : JVal
  min : JVal
  max : JVal
  contour : List JVal
deriving DecidableEq

/-- Mean of a list of embedded numbers as computed by
values.reduce((a, b) => a + b) / values.length on a nonempty list. -/
def jmeanOf (l : List JVal) : JVal :=
  match l with
  | [] => JVal.num 0
  | h :: t => jdiv (t.foldl jadd h) (num (l.length : ℚ))

/-- Embedding of AcousticAnalyzer.analyzePitch. The per-frame estimates are
kept when greater than 50 Hz; aggregates use only the estimates strictly
between 50 and 400 Hz, and default to zero when no estimate qualifies. -/
def analyzePitch (sampleRate : ℚ) (audioData : List ℚ) : PitchStats :=
  let pitchValues := ((frames sampleRate audioData).map (estimatePitch sampleRate)).filter
    (fun p => jgtQ p 50)
  let validPitches := pitchValues.filter (fun p => jgtQ p 50 && jltQ p 400)
  { values := pitchValues
    mean := if validPitches.length > 0 then jmeanOf validPitches else num 0
    min := if validPitches.length > 0 then jminSpread validPitches else num 0
    max := if validPitches.length > 0 then jmaxSpread validPitches else num 0
    contour := validPitches }

/-- Embedding of AcousticAnalyzer.classifySoundType: the decision chain over
the voicing verdict, the fricative flag and the mean pitch. -/
def classifySoundType (isVoiced isFricative : Bool) (pitchMean : JVal) : String :=
  if !isVoiced && isFricative then "unvoiced fricative (f, s, sh, etc.)"
  else if isVoiced && isFricative then "voiced fricative (v, z, zh, etc.)"
  else if !isVoiced && !isFricative then "unvoiced stop (p, t, k, etc.)"
  else if isVoiced && jgtQ pitchMean 80 then "voiced sound (vowel, nasal, or voiced stop)"
  else "unknown"

end AcousticAnalyzer

namespace FFTAnalyzer

/-- Embedding of FFTAnalyzer.getMagnitudeDB: 20 * Math.log10 of the stored
magnitude when positive, else -100, clamped to the -100 dB floor. The
magnitude array is embedded as a list of rationals. -/
noncomputable def getMagnitudeDB (mags : List ℚ) (index : ℕ) : ℝ :=
  let mag := mags.getD index 0
  max (if 0 < mag then 20 * Real.logb 10 (mag : ℝ) else -100) (-100)

/-- Peak predicate of FFTAnalyzer.findPeaks: the scanned index range keeps
minDistance bins away from both ends, the dB value must exceed the
threshold, and no bin within minDistance on either side may have a strictly
larger dB value. The offset k ranges over both sides, with k = minDistance
standing for the excluded offset zero. -/
def isPeakAt (mags : List ℚ) (thresholdDB : ℝ) (minDistance : ℕ) (i : ℕ) : Prop :=
  minDistance ≤ i ∧ i + minDistance < mags.length ∧
  thresholdDB < getMagnitudeDB mags i ∧
  ∀ k, k ≤ 2 * minDistance → k ≠ minDistance →
    getMagnitudeDB mags (i + k - minDistance) ≤ getMagnitudeDB mags i

/-- Peak record pushed by findPeaks. -/
structure Peak where
  binIndex : ℕ
  magnitude : ℚ
  magnitudeDB : ℝ
  frequency : ℝ

/-- Embedding of FFTAnalyzer.getFrequencyForBin at the default sample rate
44100 used by findPeaks. -/
noncomputable def getFrequencyForBin (bufferSize : ℕ) (binIndex : ℕ) : ℝ :=
  ((binIndex : ℝ) * 44100) / (bufferSize : ℝ)

/-- Record pushed for the peak at one bin. -/
noncomputable def mkPeak (bufferSize : ℕ) (mags : List ℚ) (i : ℕ) : Peak :=
  { binIndex := i
    magnitude := mags.getD i 0
    magnitudeDB := getMagnitudeDB mags i
    frequency := getFrequencyForBin bufferSize i }

open Classical in
/-- Embedding of FFTAnalyzer.findPeaks: collect the peak bins in scan order
and sort by descending magnitude, as the comparator
(a, b) => b.magnitude - a.magnitude does. -/
noncomputable def findPeaks (bufferSize : ℕ) (mags : List ℚ) (thresholdDB : ℝ)
    (minDistance : ℕ) : List Peak :=
  (((List.range mags.length).filter
    (fun i => decide (isPeakAt mags thresholdDB minDistance i))).map
    (mkPeak bufferSize mags)).mergeSort
    (fun a b => decide (b.magnitude ≤ a.magnitude))

/-- Peak predicate following the words of the specification sentence about
findPeaks: a bin is a peak iff its dB exceeds the threshold and it strictly
dominates every existing bin within minDistance on either side. Stated for
comparison with the implementation predicate isPeakAt. -/
def strictPeakSpec (mags : List ℚ) (thresholdDB : ℝ) (minDistance : ℕ) (i : ℕ) : Prop :=
  i < mags.length ∧ thresholdDB < getMagnitudeDB mags i ∧
  ∀ j : ℤ, j ≠ 0 → j.natAbs ≤ minDistance → 0 ≤ (i : ℤ) + j → (i : ℤ) + j < mags.length →
    getMagnitudeDB mags ((i : ℤ) + j).toNat < getMagnitudeDB mags i

end FFTAnalyzer

namespace AcousticCore

/-- Embedding of the AudioBuffer accumulation state: the appended samples and
the running peak magnitude. -/
structure AudioBuffer where
  sampleRate : ℚ
  samples : List ℚ
  maxValue : ℚ
deriving DecidableEq

/-- Embedding of the AudioBuffer constructor at a given sample rate. -/
def mkAudioBuffer (sampleRate : ℚ) : AudioBuffer :=
  { sampleRate := sampleRate, samples := [], maxValue := 0 }

/-- Embedding of AudioBuffer.addSample: append and update the running peak
with the absolute value of the new sample. -/
def AudioBuffer.addSample (b : AudioBuffer) (pressure : ℚ) : AudioBuffer :=
  { b with samples := b.samples ++ [pressure], maxValue := max b.maxValue |pressure| }

/-- Buffer obtained by feeding a whole sequence of samples to addSample. -/
def buildAudioBuffer (l : List ℚ) : AudioBuffer :=
  l.foldl AudioBuffer.addSample (mkAudioBuffer 44100)

/-- Embedding of AudioBuffer.normalize: the identity on a zero peak,
otherwise division by the peak times 1.1 for headroom. -/
def AudioBuffer.normalize (b : AudioBuffer) : List ℚ :=
  if b.maxValue = 0 then b.samples
  else b.samples.map (fun s => s / (b.maxValue * (11 / 10)))

end AcousticCore

namespace AcousticSimulator

/-- CFL number of a requested configuration: speedOfSound * timeStep /
cellSize, as computed in the constructor. -/
def cflNumber (speedOfSound timeStep cellSize : ℚ) : ℚ :=
  speedOfSound * timeStep / cellSize

/-- Timestep retained by the constructor: the requested one, unless the CFL
number exceeds 1, in which case it is clamped to 0.9 * cellSize /
speedOfSound. Construction is total, so it never fails. -/
def effectiveTimeStep (speedOfSound timeStep cellSize : ℚ) : ℚ :=
  if 1 < cflNumber speedOfSound timeStep cellSize
  then 9 / 10 * cellSize / speedOfSound
  else timeStep

/-- Wave-equation coefficient computed by the constructor from the retained
timestep: (speedOfSound * timeStep / cellSize) squared. -/
def waveCoeff (speedOfSound timeStep cellSize : ℚ) : ℚ :=
  (speedOfSound * effectiveTimeStep speedOfSound timeStep cellSize / cellSize) ^ 2

/-- Pressure or velocity grid of the solver: height by width cells of real
pressure values, indexed row first as in grid[y][x]. -/
def Grid (width height : ℕ) : Type := Fin height → Fin width → ℝ

/-- Grid created by createGrid(0). -/
def zeroGrid (width height : ℕ) : Grid width height := fun _ _ => 0

/-- Geometry tag of a registered source: a point cell, a rasterized line, or
a circular membrane. -/
inductive SourceKind where
  | point (x y : ℤ)
  | line (startX startY endX endY : ℤ)
  | membrane (centerX centerY radius : ℤ)

/-- Registered source descriptor. The duration is None for the sources that
never expire: addStringSource and addMembraneSource set no duration, and
addSource defaults it to Infinity; a JavaScript comparison elapsed >
duration is false in both cases. -/
structure Source where
  kind : SourceKind
  frequency : ℝ
  amplitude : ℝ
  startTime : ℝ
  duration : Option ℝ
  phase : ℝ

/-- Expiry test elapsed > source.duration of the update loop. -/
def expired : Option ℝ → ℝ → Prop
  | none, _ => False
  | some d, elapsed => d < elapsed

/-- Activity guard of the source update loop: the loop skips a source when
elapsed < 0 or elapsed > duration, and otherwise splats it. -/
def sourceActive (s : Source) (time : ℝ) : Prop :=
  ¬ (time - s.startTime < 0 ∨ expired s.duration (time - s.startTime))

/-- Addition of a value into the cell (gx, gy) of a grid, guarded by the
inBounds check of the source: coordinates outside the grid match no cell and
the grid is unchanged, which embeds the silent drop of out-of-grid
geometry. -/
def bump (width height : ℕ) (gx gy : ℤ) (v : ℝ) (g : Grid width height) :
    Grid width height :=
  fun y x => if (x.val : ℤ) = gx ∧ (y.val : ℤ) = gy then g y x + v else g y x

/-- Loop body of the Bresenham rasterization, with explicit fuel bounding the
iteration count; the driver passes enough fuel for the loop to reach its
exit condition, namely one more than the number of steps a Bresenham walk
takes. -/
def bresenhamLoop : ℕ → ℤ → ℤ → ℤ → ℤ → ℤ → ℤ → ℤ → ℤ → ℤ → List (ℤ × ℤ)
  | 0, _, _, _, _, _, _, _, _, _ => []
  | fuel + 1, x, y, x1, y1, sx, sy, dx, dy, err =>
    (x, y) ::
      (if x = x1 ∧ y = y1 then []
       else
         let e2 := 2 * err
         let err1 := if -dy < e2 then err - dy else err
         let x2 := if -dy < e2 then x + sx else x
         let err2 := if e2 < dx then err1 + dx else err1
         let y2 := if e2 < dx then y + sy else y
         bresenhamLoop fuel x2 y2 x1 y1 sx sy dx dy err2)

/-- Embedding of AcousticSimulator.bresenhamLine. -/
def bresenhamLine (x0 y0 x1 y1 : ℤ) : List (ℤ × ℤ) :=
  let dx := |x1 - x0|
  let dy := |y1 - y0|
  let sx : ℤ := if x0 < x1 then 1 else -1
  let sy : ℤ := if y0 < y1 then 1 else -1
  bresenhamLoop (dx + dy + 1).toNat x0 y0 x1 y1 sx sy dx dy (dx - dy)

/-- Integers from a to b inclusive, the range of the membrane offset
loops. -/
def intRange (a b : ℤ) : List ℤ :=
  (List.range (b - a + 1).toNat).map (fun k => a + (k : ℤ))

/-- Offset pairs (dx, dy) visited by the membrane double loop, outer loop
over dy. -/
def membraneOffsets (radius : ℤ) : List (ℤ × ℤ) :=
  (intRange (-radius) radius).flatMap
    (fun dy => (intRange (-radius) radius).map (fun dx => (dx, dy)))

open Classical in
/-- Contribution of one active source to the scratch source grid for one
step: the point waveform amplitude * sin(2 pi f t + phase) at a single
cell, the phaseless line waveform along the Bresenham rasterization, or the
phaseless membrane waveform weighted by cos(pi * distance / (2 * radius))
over the disc of cells within the radius. -/
noncomputable def sourceContribution (width height : ℕ) (s : Source) (time : ℝ) :
    Grid width height :=
  match s.kind with
  | SourceKind.point px py =>
      bump width height px py
        (s.amplitude * Real.sin (2 * Real.pi * s.frequency * time + s.phase))
        (zeroGrid width height)
  | SourceKind.line x0 y0 x1 y1 =>
      (bresenhamLine x0 y0 x1 y1).foldl
        (fun g pt =>
          bump width height pt.1 pt.2
            (s.amplitude * Real.sin (2 * Real.pi * s.frequency * time)) g)
        (zeroGrid width height)
  | SourceKind.membrane cx cy r =>
      (membraneOffsets r).foldl
        (fun g pt =>
          let dist := Real.sqrt ((pt.1 : ℝ) ^ 2 + (pt.2 : ℝ) ^ 2)
          if dist ≤ (r : ℝ) then
            bump width height (cx + pt.1) (cy + pt.2)
              (s.amplitude * Real.sin (2 * Real.pi * s.frequency * time) *
                Real.cos (Real.pi * dist / (2 * (r : ℝ)))) g
          else g)
        (zeroGrid width height)

open Classical in
/-- Embedding of AcousticSimulator.updateSources: rebuild the scratch source
grid by accumulating the contribution of every source whose activity window
contains the step time. -/
noncomputable def updateSources (width height : ℕ) (sources : List Source) (time : ℝ) :
    Grid width height :=
  sources.foldl
    (fun acc s =>
      if sourceActive s time then
        fun y x => acc y x + sourceContribution width height s time y x
      else acc)
    (zeroGrid width height)

/-- Embedding of AcousticSimulator.laplacian: the 5-point stencil whose
bounds checks substitute zero for each out-of-grid neighbor. -/
def laplacian {width height : ℕ} (g : Grid width height) (x : Fin width)
    (y : Fin height) : ℝ :=
  (if h1 : 0 < y.val then g ⟨y.val - 1, by omega⟩ x else 0) +
  (if h2 : y.val + 1 < height then g ⟨y.val + 1, h2⟩ x else 0) +
  (if h3 : 0 < x.val then g y ⟨x.val - 1, by omega⟩ else 0) +
  (if h4 : x.val + 1 < width then g y ⟨x.val + 1, h4⟩ else 0) -
  4 * g y x

/-- Zero extension of a grid to all integer coordinates, the reference
reading of the boundary convention: every cell outside the grid holds
pressure zero. -/
def extendZero {width height : ℕ} (g : Grid width height) (yy xx : ℤ) : ℝ :=
  if hy : 0 ≤ yy ∧ yy < (height : ℤ) then
    if hx : 0 ≤ xx ∧ xx < (width : ℤ) then g ⟨yy.toNat, by omega⟩ ⟨xx.toNat, by omega⟩
    else 0
  else 0

/-- Embedding of the x component of calculateVelocity: the forward pressure
difference when a right neighbor exists, zero at the far boundary, scaled by
-1 / (airDensity * cellSize). -/
noncomputable def calcVelocityX {width height : ℕ} (airDensity cellSize : ℝ)
    (g : Grid width height) : Grid width height :=
  fun y x =>
    let dpDx := (if h : x.val + 1 < width then g y ⟨x.val + 1, h⟩ - g y x else 0);
    -dpDx / (airDensity * cellSize)

/-- Embedding of the y component of calculateVelocity. -/
noncomputable def calcVelocityY {width height : ℕ} (airDensity cellSize : ℝ)
    (g : Grid width height) : Grid width height :=
  fun y x =>
    let dpDy := (if h : y.val + 1 < height then g ⟨y.val + 1, h⟩ x - g y x else 0);
    -dpDy / (airDensity * cellSize)

/-- Velocity reading asserted by the boundary sentence of the specification,
stated for comparison with calcVelocityX: the forward difference against the
zero extension of the grid, so that an out-of-grid right neighbor reads as
zero pressure. -/
noncomputable def velocityXSpec {width height : ℕ} (airDensity cellSize : ℝ)
    (g : Grid width height) : Grid width height :=
  fun y x =>
    -(extendZero g (y.val : ℤ) ((x.val : ℤ) + 1) - g y x) / (airDensity * cellSize)

/-- Maximum absolute pressure of a grid, the double loop of updateStats
folding Math.max from 0. -/
noncomputable def maxAbsGrid {width height : ℕ} (g : Grid width height) : ℝ :=
  (List.finRange height).foldl
    (fun acc y => (List.finRange width).foldl (fun a2 x => max a2 |g y x|) acc) 0

/-- Energy statistic of updateStats: the sum over cells of p * p plus half
the air density times the squared velocity magnitude, with p the absolute
pressure. -/
noncomputable def energyContentOf {width height : ℕ} (airDensity : ℝ)
    (p vx vy : Grid width height) : ℝ :=
  (List.finRange height).foldl
    (fun acc y =>
      (List.finRange width).foldl
        (fun a2 x =>
          a2 + (|p y x| * |p y x| +
            1 / 2 * airDensity * (vx y x * vx y x + vy y x * vy y x))) acc) 0

/-- Mutable state of one AcousticSimulator instance. The JavaScript triple
buffer rotation previous, current, next is embedded by state passing: after
a step the new current grid is the computed one and the previous grid is the
old current one; the third buffer is scratch storage with no observable
content. -/
structure SimState (width height : ℕ) where
  cellSize : ℝ
  speedOfSound : ℝ
  airDensity : ℝ
  timeStep : ℝ
  coeff : ℝ
  dampingFactor : ℝ
  pressure : Grid width height
  pressurePrev : Grid width height
  velocityX : Grid width height
  velocityY : Grid width height
  sources : List Source
  time : ℝ
  maxPressure : ℝ
  energyContent : ℝ

/-- Embedding of AcousticSimulator.step: refresh the scratch source grid,
apply the wave update next = (2 p - pPrev + coeff * laplacian + source) *
damping to every cell, rotate buffers, recompute velocities from the new
pressure, and recompute the statistics by a full grid scan. -/
noncomputable def step {width height : ℕ} (st : SimState width height) (time : ℝ) :
    SimState width height :=
  let sourceValues := updateSources width height st.sources time
  let next : Grid width height := fun y x =>
    (2 * st.pressure y x - st.pressurePrev y x +
      st.coeff * laplacian st.pressure x y + sourceValues y x) * st.dampingFactor
  let vx := calcVelocityX st.airDensity st.cellSize next
  let vy := calcVelocityY st.airDensity st.cellSize next
  { st with
    time := time
    pressure := next
    pressurePrev := st.pressure
    velocityX := vx
    velocityY := vy
    maxPressure := maxAbsGrid next
    energyContent := energyContentOf st.airDensity next vx vy }

end AcousticSimulator

section ClaimTheorems

open AcousticAnalyzer JVal AcousticCore

/-- C1: the analyzer contract promises a well-formed FeatureRecord for every
nonempty finite-valued clip, including clips shorter than one 25 ms frame.
On such a clip analyzeEnergy, the first stage of analyzeAudio, produces no
frame and its mean computation reduces an empty array with no seed, so the
JavaScript TypeError aborts analyzeAudio. At 200 Hz sample rate the frame is
5 samples and the nonempty 3-sample clip below already fails. -/
theorem analyzeEnergy_throws_on_subframe_clip :
    analyzeEnergy 200 [1, 2, 3] =
      Except.error "Reduce of empty array with no initial value" := by
  have h5 : frameSize 200 = 5 := by
    have hf : ⌊(200 : ℚ) * (25 / 1000)⌋ = 5 := by norm_num
    simp [frameSize, hf]
  have h2 : hopSize 200 = 2 := by
    have hf : ⌊(200 : ℚ) * (10 / 1000)⌋ = 2 := by norm_num
    simp [hopSize, hf]
  simp [analyzeEnergy, energiesOf, frames, frameStarts, h5, h2, jsumReduce, Except.map]

end ClaimTheorems

namespace AcousticCore

/-- Running peak and sample list after feeding a sample sequence from any
starting buffer. -/
theorem foldl_addSample (l : List ℚ) (b : AudioBuffer) :
    (l.foldl AudioBuffer.addSample b).samples = b.samples ++ l ∧
    (l.foldl AudioBuffer.addSample b).maxValue =
      l.foldl (fun a s => max a |s|) b.maxValue := by
  induction l generalizing b with
  | nil => simp
  | cons hd tl ih =>
    simpa [AudioBuffer.addSample] using ih { b with
      samples := b.samples ++ [hd], maxValue := max b.maxValue |hd| }

end AcousticCore

section ClaimTheoremsB

open AcousticAnalyzer JVal AcousticCore AcousticSimulator

/-- C2: for every positive requested configuration the effective coefficient
(speedOfSound * timeStep / cellSize) squared after construction is at most
1, hence below 1 + epsilon for every nonnegative epsilon, and a
configuration whose CFL number exceeds 1 has its timestep clamped to
0.9 * cellSize / speedOfSound. Construction is a total function and never
fails. -/
theorem waveCoeff_le_one (c dt dx : ℚ) (hc : 0 < c) (hdt : 0 < dt) (hdx : 0 < dx) :
    waveCoeff c dt dx ≤ 1 ∧
    (1 < cflNumber c dt dx → effectiveTimeStep c dt dx = 9 / 10 * dx / c) := by
  have hc0 : c ≠ 0 := ne_of_gt hc
  have hdx0 : dx ≠ 0 := ne_of_gt hdx
  constructor
  · by_cases h : 1 < cflNumber c dt dx
    · rw [waveCoeff, effectiveTimeStep, if_pos h]
      have h9 : c * (9 / 10 * dx / c) / dx = 9 / 10 := by
        field_simp
        ring
      rw [h9]
      norm_num
    · rw [waveCoeff, effectiveTimeStep, if_neg h]
      push_neg at h
      rw [cflNumber] at h
      have h0 : 0 ≤ c * dt / dx := by positivity
      calc (c * dt / dx) ^ 2 ≤ 1 ^ 2 := by
            exact pow_le_pow_left₀ h0 (by simpa using h) 2
        _ = 1 := one_pow 2
  · intro h
    rw [effectiveTimeStep, if_pos h]

/-- Witness for C2 at a CFL-violating configuration. -/
theorem waveCoeff_le_one_witness :
    waveCoeff 343 (1 / 10) (1 / 100) ≤ 1 ∧
    (1 < cflNumber 343 (1 / 10) (1 / 100) →
      effectiveTimeStep 343 (1 / 10) (1 / 100) = 9 / 10 * (1 / 100) / 343) :=
  waveCoeff_le_one 343 (1 / 10) (1 / 100) (by norm_num) (by norm_num) (by norm_num)

/-- C6: feeding any sample sequence to the audio buffer stores the sequence
and tracks its peak magnitude; normalize returns it unchanged when the peak
is zero and otherwise divides every sample by the peak times 1.1. Over the
rational embedding every result value is a well-defined finite number, so no
NaN or infinity can appear. -/
theorem audioBuffer_normalize_spec (l : List ℚ) :
    (buildAudioBuffer l).samples = l ∧
    (buildAudioBuffer l).maxValue = l.foldl (fun a s => max a |s|) 0 ∧
    ((buildAudioBuffer l).maxValue = 0 → (buildAudioBuffer l).normalize = l) ∧
    ((buildAudioBuffer l).maxValue ≠ 0 →
      (buildAudioBuffer l).normalize =
        l.map (fun s => s / ((buildAudioBuffer l).maxValue * (11 / 10)))) := by
  have h := foldl_addSample l (mkAudioBuffer 44100)
  rw [buildAudioBuffer]
  refine ⟨by simpa [mkAudioBuffer] using h.1, by simpa [mkAudioBuffer] using h.2, ?_, ?_⟩
  · intro h0
    rw [AudioBuffer.normalize, if_pos h0]
    simpa [mkAudioBuffer] using h.1
  · intro h0
    rw [AudioBuffer.normalize, if_neg h0]
    rw [show (List.foldl AudioBuffer.addSample (mkAudioBuffer 44100) l).samples = l from by
      simpa [mkAudioBuffer] using h.1]

/-- Witness for C6 on an all-zero buffer. -/
theorem audioBuffer_normalize_witness :
    (buildAudioBuffer [0, 0]).normalize = [0, 0] :=
  (audioBuffer_normalize_spec [0, 0]).2.2.1
    (by simp [buildAudioBuffer, mkAudioBuffer, AudioBuffer.addSample])

/-- C9: classifySoundType is the stated first-match decision table over the
voicing verdict, the fricative flag and the mean pitch: the three flag
combinations give the fricative and stop labels, a voiced non-fricative
record with mean pitch above 80 gives the voiced-sound label, and otherwise
the result is unknown. -/
theorem classifySoundType_decision_table (m : JVal) :
    classifySoundType false true m = "unvoiced fricative (f, s, sh, etc.)" ∧
    classifySoundType true true m = "voiced fricative (v, z, zh, etc.)" ∧
    classifySoundType false false m = "unvoiced stop (p, t, k, etc.)" ∧
    (jgtQ m 80 = true →
      classifySoundType true false m = "voiced sound (vowel, nasal, or voiced stop)") ∧
    (jgtQ m 80 = false → classifySoundType true false m = "unknown") := by
  refine ⟨rfl, rfl, rfl, ?_, ?_⟩ <;> intro h <;> simp [classifySoundType, h]

/-- Witness for C9 on both pitch branches. -/
theorem classifySoundType_decision_table_witness :
    classifySoundType true false (JVal.num 150) =
      "voiced sound (vowel, nasal, or voiced stop)" ∧
    classifySoundType true false (JVal.num 60) = "unknown" :=
  ⟨(classifySoundType_decision_table (JVal.num 150)).2.2.2.1
      (by simp [jgtQ]; norm_num),
    (classifySoundType_decision_table (JVal.num 60)).2.2.2.2
      (by simp [jgtQ]; norm_num)⟩

end ClaimTheoremsB

namespace AcousticAnalyzer

open JVal

/-- Initial value bound for a running maximum fold. -/
theorem le_foldl_max (l : List ℚ) (a : ℚ) : a ≤ l.foldl max a := by
  induction l generalizing a with
  | nil => exact le_refl a
  | cons hd tl ih => exact le_trans (le_max_left a hd) (ih (max a hd))

/-- Member bound for a running maximum fold. -/
theorem mem_le_foldl_max (l : List ℚ) (a x : ℚ) (hx : x ∈ l) : x ≤ l.foldl max a := by
  induction l generalizing a with
  | nil => cases hx
  | cons hd tl ih =>
    rcases List.mem_cons.mp hx with h | h
    · subst h
      exact le_trans (le_max_right a x) (le_foldl_max tl (max a x))
    · exact ih (max a hd) h

/-- Math.max by spread over a nonempty list of finite values is the finite
running maximum from the head. -/
theorem jmaxSpread_num (h : ℚ) (t : List ℚ) :
    jmaxSpread ((h :: t).map num) = num (t.foldl max h) := by
  have key : ∀ (l : List ℚ) (a : ℚ), (l.map num).foldl jmax (num a) = num (l.foldl max a) := by
    intro l
    induction l with
    | nil => intro a; rfl
    | cons hd tl ih => intro a; simpa [jmax] using ih (max a hd)
  simpa [jmaxSpread, jmax] using key t h

/-- Division by a positive constant commutes with a running maximum fold. -/
theorem foldl_max_div (l : List ℚ) (a M : ℚ) (hM : 0 ≤ M) :
    (l.map (fun e => e / M)).foldl max (a / M) = (l.foldl max a) / M := by
  induction l generalizing a with
  | nil => rfl
  | cons hd tl ih =>
    simpa [max_div_div_right hM a hd] using ih (max a hd)

/-- Per-frame energies are nonnegative: each is a mean of squares. -/
theorem energiesOf_nonneg (sr : ℚ) (data : List ℚ) :
    ∀ e ∈ energiesOf sr data, 0 ≤ e := by
  intro e he
  obtain ⟨f, _, rfl⟩ := List.mem_map.mp he
  refine div_nonneg (List.sum_nonneg ?_) (Nat.cast_nonneg _)
  intro x hx
  obtain ⟨s, _, rfl⟩ := List.mem_map.mp hx
  exact mul_self_nonneg s

end AcousticAnalyzer

namespace AcousticAnalyzer

open JVal

/-- Bounds for the dB field on a normalized maximum of exactly 1: the value
20 * log10(1 + 1e-10) is positive yet below 1e-8. -/
theorem energyDB_one_bounds :
    0 < energyDB (JVal.num 1) ∧ energyDB (JVal.num 1) < 1 / 10 ^ 8 := by
  have harg : ((1 : ℚ) : ℝ) + 1 / 10 ^ 10 = 1 + 1 / 10 ^ 10 := by norm_num
  have hlog10 : (2 : ℝ) < Real.log 10 := by
    have h1 : Real.exp 2 = Real.exp 1 * Real.exp 1 := by
      rw [← Real.exp_add]; norm_num
    have h2 : Real.exp 2 < 10 := by nlinarith [Real.exp_one_lt_d9, Real.exp_pos 1]
    calc (2 : ℝ) = Real.log (Real.exp 2) := (Real.log_exp 2).symm
      _ < Real.log 10 := Real.log_lt_log (Real.exp_pos 2) h2
  constructor
  · have hpos := Real.logb_pos (by norm_num : (1 : ℝ) < 10)
      (by rw [harg]; norm_num : (1 : ℝ) < ((1 : ℚ) : ℝ) + 1 / 10 ^ 10)
    simp only [energyDB]
    nlinarith [hpos]
  · have hx : Real.log (((1 : ℚ) : ℝ) + 1 / 10 ^ 10) ≤ 1 / 10 ^ 10 := by
      have hle := Real.log_le_sub_one_of_pos
        (show (0 : ℝ) < ((1 : ℚ) : ℝ) + 1 / 10 ^ 10 by rw [harg]; norm_num)
      rw [harg] at hle ⊢
      linarith
    have hlogb : Real.logb 10 (((1 : ℚ) : ℝ) + 1 / 10 ^ 10) ≤ 1 / 10 ^ 10 / 2 := by
      rw [Real.logb]
      exact div_le_div₀ (by norm_num) hx (by norm_num) (le_of_lt hlog10)
    simp only [energyDB]
    nlinarith [hlogb]

/-- Quality verdict on a normalized maximum of exactly 1: the clipping issue
alone fires and the score is 80. -/
theorem assessQuality_at_one :
    assessQuality (JVal.num 1) =
      { score := 80, issues := ["clipping/distortion"], isGood := false } := by
  have h1 : jltQ (JVal.num 1) (3 / 10) = false := by
    simp only [jltQ, decide_eq_false_iff_not]
    norm_num
  have h2 : jgtQ (JVal.num 1) (95 / 100) = true := by
    simp only [jgtQ, decide_eq_true_eq]
    norm_num
  simp [assessQuality, h1, h2]

end AcousticAnalyzer

section ClaimTheoremsC

open AcousticAnalyzer JVal

/-- C10 (amended): for every clip whose analysis produces at least one frame
and whose covered frames do not all have zero energy, the per-frame energies
are normalized against the clip maximum, so the stored energy maximum equals
exactly 1, the dB value 20 * log10(1 + 1e-10) lies strictly between 0 and
1e-8, and assessQuality reports exactly the clipping issue with score 80,
however quiet or clean the recording is. A nonzero sample lying outside
every covered frame does not count: there the normalization divides zero by
zero and the stored statistics are NaN instead. -/
theorem analyzeEnergy_clipping_assessment (sr : ℚ) (data : List ℚ)
    (hne : energiesOf sr data ≠ [])
    (hnz : ∃ e ∈ energiesOf sr data, e ≠ 0) :
    ∃ st : EnergyStats, analyzeEnergy sr data = Except.ok st ∧
      st.max = JVal.num 1 ∧
      0 < energyDB st.max ∧ energyDB st.max < 1 / 10 ^ 8 ∧
      assessQuality st.max =
        { score := 80, issues := ["clipping/distortion"], isGood := false } := by
  obtain ⟨h, t, hE⟩ := List.exists_cons_of_ne_nil hne
  have hnonneg := energiesOf_nonneg sr data
  set M := t.foldl max h with hMdef
  have hh0 : 0 ≤ h := hnonneg h (by rw [hE]; exact List.mem_cons_self h t)
  have hMh : h ≤ M := le_foldl_max t h
  have hM0 : 0 ≤ M := le_trans hh0 hMh
  have hMpos : 0 < M := by
    obtain ⟨e, he, hene⟩ := hnz
    have hepos : 0 < e := lt_of_le_of_ne (hnonneg e he) (Ne.symm hene)
    rw [hE] at he
    rcases List.mem_cons.mp he with rfl | he2
    · exact lt_of_lt_of_le hepos hMh
    · exact lt_of_lt_of_le hepos (mem_le_foldl_max t h e he2)
  have hMne : M ≠ 0 := ne_of_gt hMpos
  have hmaxE : jmaxSpread ((energiesOf sr data).map num) = num M := by
    rw [hE]; exact jmaxSpread_num h t
  have hnorm : (energiesOf sr data).map
      (fun e => jdiv (num e) (jmaxSpread ((energiesOf sr data).map num))) =
      num (h / M) :: (t.map (fun e => e / M)).map num := by
    rw [hmaxE, hE]
    simp [jdiv, jdivQ, hMne, Function.comp, List.map_map]
  have hmax1 : jmaxSpread (num (h / M) :: (t.map (fun e => e / M)).map num) = num 1 := by
    have := jmaxSpread_num (h / M) (t.map (fun e => e / M))
    rw [List.map_cons] at this
    rw [this, foldl_max_div t h M hM0, ← hMdef, div_self hMne]
  refine ⟨{ values := num (h / M) :: (t.map (fun e => e / M)).map num
            mean := jdiv (((t.map (fun e => e / M)).map num).foldl jadd (num (h / M)))
              (num ((num (h / M) :: (t.map (fun e => e / M)).map num).length : ℚ))
            max := jmaxSpread (num (h / M) :: (t.map (fun e => e / M)).map num)
            min := jminSpread (num (h / M) :: (t.map (fun e => e / M)).map num) },
    ?_, ?_, ?_, ?_, ?_⟩
  · simp only [analyzeEnergy, hnorm, jsumReduce, Except.map]
  · exact hmax1
  · rw [hmax1]; exact energyDB_one_bounds.1
  · rw [hmax1]; exact energyDB_one_bounds.2
  · rw [hmax1]; exact assessQuality_at_one

end ClaimTheoremsC

namespace AcousticAnalyzer

/-- Frame size evaluation at the 200 Hz sample rate used by the concrete
instances. -/
theorem frameSize_200 : frameSize 200 = 5 := by
  have hf : ⌊(200 : ℚ) * (25 / 1000)⌋ = 5 := by norm_num
  simp [frameSize, hf]

/-- Hop size evaluation at the 200 Hz sample rate. -/
theorem hopSize_200 : hopSize 200 = 2 := by
  have hf : ⌊(200 : ℚ) * (10 / 1000)⌋ = 2 := by norm_num
  simp [hopSize, hf]

/-- Energy list of the all-ones six-sample clip at 200 Hz: one frame of unit
energy. -/
theorem energiesOf_six_ones : energiesOf 200 [1, 1, 1, 1, 1, 1] = [1] := by
  simp [energiesOf, frames, frameStarts, frameSize_200, hopSize_200, frameEnergy,
    List.range_succ, Function.comp]
  norm_num

/-- Energy list of the clip whose only nonzero sample lies outside the single
covered frame: one frame of zero energy. -/
theorem energiesOf_tail_spike : energiesOf 200 [0, 0, 0, 0, 0, 1] = [0] := by
  simp [energiesOf, frames, frameStarts, frameSize_200, hopSize_200, frameEnergy,
    List.range_succ, Function.comp]

end AcousticAnalyzer

section ClaimTheoremsD

open AcousticAnalyzer JVal

/-- Witness for C10 on the all-ones six-sample clip at 200 Hz. -/
theorem analyzeEnergy_clipping_assessment_witness :
    ∃ st : EnergyStats, analyzeEnergy 200 [1, 1, 1, 1, 1, 1] = Except.ok st ∧
      st.max = JVal.num 1 ∧
      0 < energyDB st.max ∧ energyDB st.max < 1 / 10 ^ 8 ∧
      assessQuality st.max =
        { score := 80, issues := ["clipping/distortion"], isGood := false } :=
  analyzeEnergy_clipping_assessment 200 [1, 1, 1, 1, 1, 1]
    (by rw [energiesOf_six_ones]; simp)
    ⟨1, by rw [energiesOf_six_ones]; simp, one_ne_zero⟩

/-- C10 counterexample to the claim as stated: this clip contains a full
25 ms frame and a nonzero sample, yet the normalization divides the zero
frame energy by a zero maximum, every stored statistic is NaN rather than 1,
and assessQuality reports no issue and score 100 instead of the clipping
issue and score 80. -/
theorem analyzeEnergy_nan_counterexample :
    frameSize 200 < ([0, 0, 0, 0, 0, 1] : List ℚ).length ∧
    (1 : ℚ) ∈ ([0, 0, 0, 0, 0, 1] : List ℚ) ∧
    analyzeEnergy 200 [0, 0, 0, 0, 0, 1] =
      Except.ok { values := [JVal.nan], mean := JVal.nan,
                  max := JVal.nan, min := JVal.nan } ∧
    assessQuality JVal.nan = { score := 100, issues := [], isGood := true } := by
  refine ⟨by rw [frameSize_200]; simp, by simp, ?_, ?_⟩
  · simp [analyzeEnergy, energiesOf_tail_spike, jmaxSpread, jmax, jdiv, jdivQ,
      jsumReduce, Except.map, jminSpread, jmin, jadd]
  · simp [assessQuality, jltQ, jgtQ]

end ClaimTheoremsD

namespace AcousticAnalyzer

open JVal

/-- The best lag returned by the pitch search is either the initial zero or
a searched lag, which lies between minLag and maxLag. -/
theorem bestLagSearch_mem (sr : ℚ) (frame : List ℚ) :
    (bestLagSearch sr frame).2 = 0 ∨
    (minLag sr ≤ (bestLagSearch sr frame).2 ∧ (bestLagSearch sr frame).2 < maxLag sr) := by
  have key : ∀ (l : List ℕ) (acc : ℚ × ℕ),
      (∀ lag ∈ l, minLag sr ≤ lag ∧ lag < maxLag sr) →
      (acc.2 = 0 ∨ (minLag sr ≤ acc.2 ∧ acc.2 < maxLag sr)) →
      ((l.foldl (fun acc lag =>
        let corr := calculateAutocorrelation frame lag
        if acc.1 < corr then (corr, lag) else acc) acc).2 = 0 ∨
        (minLag sr ≤ (l.foldl (fun acc lag =>
          let corr := calculateAutocorrelation frame lag
          if acc.1 < corr then (corr, lag) else acc) acc).2 ∧
          (l.foldl (fun acc lag =>
            let corr := calculateAutocorrelation frame lag
            if acc.1 < corr then (corr, lag) else acc) acc).2 < maxLag sr)) := by
    intro l
    induction l with
    | nil => intro acc _ hacc; exact hacc
    | cons hd tl ih =>
      intro acc hl hacc
      refine ih _ (fun lag hlag => hl lag (List.mem_cons_of_mem hd hlag)) ?_
      by_cases hcorr : acc.1 < calculateAutocorrelation frame hd
      · simp only [if_pos hcorr]
        exact Or.inr (hl hd (List.mem_cons_self hd tl))
      · simpa only [if_neg hcorr] using hacc
  refine key _ (0, 0) ?_ (Or.inl rfl)
  intro lag hlag
  have := List.mem_range'_1.mp hlag
  omega

/-- Every per-frame pitch estimate passes the greater-than-50 filter: a zero
best lag divides the positive sample rate by zero and gives Infinity, and a
searched best lag is below sampleRate / 50, so the quotient exceeds
50 Hz. -/
theorem estimatePitch_gt_50 (sr : ℚ) (frame : List ℚ) (hsr : 0 < sr) :
    jgtQ (estimatePitch sr frame) 50 = true := by
  rw [estimatePitch]
  by_cases hb : (bestLagSearch sr frame).2 = 0
  · rw [hb]
    simp only [Nat.cast_zero, jdivQ, if_pos rfl, if_neg (ne_of_gt hsr), if_pos hsr]
    rfl
  · have hmem := (bestLagSearch_mem sr frame).resolve_left hb
    have hbpos : 0 < (bestLagSearch sr frame).2 := Nat.pos_of_ne_zero hb
    have hlt : ((bestLagSearch sr frame).2 : ℚ) < sr / 50 := by
      have h1 : ((bestLagSearch sr frame).2 : ℤ) < ⌊sr / 50⌋ := by
        have := hmem.2
        rw [maxLag] at this
        exact_mod_cast Int.lt_toNat.mp (by exact_mod_cast this)
      calc ((bestLagSearch sr frame).2 : ℚ) < (⌊sr / 50⌋ : ℚ) := by exact_mod_cast h1
        _ ≤ sr / 50 := Int.floor_le _
    have hqpos : (0 : ℚ) < ((bestLagSearch sr frame).2 : ℚ) := by exact_mod_cast hbpos
    have h50 : (50 : ℚ) < sr / ((bestLagSearch sr frame).2 : ℚ) := by
      rw [lt_div_iff₀ hqpos]
      have := (lt_div_iff₀ (by norm_num : (0 : ℚ) < 50)).mp hlt
      linarith
    rw [jdivQ, if_neg (ne_of_gt hqpos)]
    simpa [jgtQ] using h50

end AcousticAnalyzer

section ClaimTheoremsE

open AcousticAnalyzer JVal

/-- C4: the pitch aggregates are taken only from per-frame estimates within
the plausible 50 to 400 Hz band, the raw per-frame estimate series is
retained in full in the values field since the greater-than-50 filter keeps
every estimate, and a clip with no valid pitch observation yields zero mean,
min and max instead of failing. -/
theorem analyzePitch_range_and_fallback (sr : ℚ) (data : List ℚ) (hsr : 0 < sr) :
    (analyzePitch sr data).values = (frames sr data).map (estimatePitch sr) ∧
    (∀ p ∈ (analyzePitch sr data).contour, ∃ q : ℚ, p = JVal.num q ∧ 50 ≤ q ∧ q ≤ 400) ∧
    ((analyzePitch sr data).contour = [] →
      (analyzePitch sr data).mean = JVal.num 0 ∧
      (analyzePitch sr data).min = JVal.num 0 ∧
      (analyzePitch sr data).max = JVal.num 0) := by
  refine ⟨?_, ?_, ?_⟩
  · show ((frames sr data).map (estimatePitch sr)).filter (fun p => jgtQ p 50) = _
    apply List.filter_eq_self.mpr
    intro p hp
    obtain ⟨f, _, rfl⟩ := List.mem_map.mp hp
    exact estimatePitch_gt_50 sr f hsr
  · intro p hp
    have hmem := List.of_mem_filter hp
    rcases p with q | _ | _ | _
    · refine ⟨q, rfl, ?_, ?_⟩
      · have := (Bool.and_elim_left hmem)
        simp only [jgtQ, decide_eq_true_eq] at this
        linarith
      · have := (Bool.and_elim_right hmem)
        simp only [jltQ, decide_eq_true_eq] at this
        linarith
    · exact absurd (Bool.and_elim_right hmem) (by simp [jltQ])
    · exact absurd (Bool.and_elim_left hmem) (by simp [jgtQ])
    · exact absurd (Bool.and_elim_left hmem) (by simp [jgtQ])
  · intro hempty
    have hlen : (((analyzePitch sr data).contour).length > 0) = False := by
      rw [hempty]; simp
    refine ⟨?_, ?_, ?_⟩ <;>
      simp only [analyzePitch] at hempty ⊢ <;>
      rw [if_neg (by rw [hempty]; simp)]

end ClaimTheoremsE

section ClaimTheoremsF

open AcousticAnalyzer JVal

/-- Witness for C4 at the 200 Hz sample rate on a silent clip. -/
theorem analyzePitch_range_and_fallback_witness :
    (analyzePitch 200 [0, 0, 0, 0, 0, 0]).values =
      (frames 200 [0, 0, 0, 0, 0, 0]).map (estimatePitch 200) ∧
    (∀ p ∈ (analyzePitch 200 [0, 0, 0, 0, 0, 0]).contour,
      ∃ q : ℚ, p = JVal.num q ∧ 50 ≤ q ∧ q ≤ 400) ∧
    ((analyzePitch 200 [0, 0, 0, 0, 0, 0]).contour = [] →
      (analyzePitch 200 [0, 0, 0, 0, 0, 0]).mean = JVal.num 0 ∧
      (analyzePitch 200 [0, 0, 0, 0, 0, 0]).min = JVal.num 0 ∧
      (analyzePitch 200 [0, 0, 0, 0, 0, 0]).max = JVal.num 0) :=
  analyzePitch_range_and_fallback 200 [0, 0, 0, 0, 0, 0] (by norm_num)

end ClaimTheoremsF

namespace FFTAnalyzer

/-- Magnitude 1 sits at 0 dB. -/
theorem getMagnitudeDB_of_one (mags : List ℚ) (i : ℕ) (h : mags.getD i 0 = 1) :
    getMagnitudeDB mags i = 0 := by
  simp only [getMagnitudeDB, h]
  rw [if_pos (by norm_num : (0 : ℚ) < 1)]
  norm_num

/-- Magnitude one tenth sits at -20 dB. -/
theorem getMagnitudeDB_of_tenth (mags : List ℚ) (i : ℕ) (h : mags.getD i 0 = 1 / 10) :
    getMagnitudeDB mags i = -20 := by
  simp only [getMagnitudeDB, h]
  rw [if_pos (by norm_num : (0 : ℚ) < 1 / 10)]
  have hcast : (((1 : ℚ) / 10 : ℚ) : ℝ) = (10 : ℝ)⁻¹ := by norm_num
  rw [hcast, Real.logb_inv, Real.logb_self_eq_one (by norm_num)]
  norm_num

end FFTAnalyzer

section ClaimTheoremsG

open FFTAnalyzer

/-- C5 (amended): findPeaks returns exactly the bins of the interior index
range, at least minDistance from either end of the spectrum, whose dB
exceeds the threshold and which are not strictly exceeded by any bin within
minDistance on either side; equal neighbors do not disqualify a bin, so
strict dominance is not required. The result is sorted by descending
magnitude. -/
theorem findPeaks_membership_and_sorted (bufferSize : ℕ) (mags : List ℚ) (thresholdDB : ℝ)
    (minDistance : ℕ) :
    (∀ i : ℕ, (∃ p ∈ findPeaks bufferSize mags thresholdDB minDistance, p.binIndex = i) ↔
      isPeakAt mags thresholdDB minDistance i) ∧
    List.Pairwise (fun a b : Peak => b.magnitude ≤ a.magnitude)
      (findPeaks bufferSize mags thresholdDB minDistance) := by
  classical
  constructor
  · intro i
    constructor
    · rintro ⟨p, hp, rfl⟩
      rw [findPeaks, List.mem_mergeSort] at hp
      obtain ⟨j, hj, rfl⟩ := List.mem_map.mp hp
      have hfil := List.mem_filter.mp hj
      exact of_decide_eq_true hfil.2
    · intro hpk
      refine ⟨mkPeak bufferSize mags i, ?_, rfl⟩
      rw [findPeaks, List.mem_mergeSort]
      refine List.mem_map.mpr ⟨i, List.mem_filter.mpr ⟨?_, decide_eq_true hpk⟩, rfl⟩
      exact List.mem_range.mpr (by have := hpk.2.1; omega)
  · have hs := @List.sorted_mergeSort Peak
      (fun a b : Peak => decide (b.magnitude ≤ a.magnitude))
      (fun a b c hab hbc => by
        simp only [decide_eq_true_eq] at hab hbc ⊢
        exact le_trans hbc hab)
      (fun a b => by
        simp only [Bool.or_eq_true, decide_eq_true_eq]
        exact le_total b.magnitude a.magnitude)
      (((List.range mags.length).filter
        (fun i => decide (isPeakAt mags thresholdDB minDistance i))).map
        (mkPeak bufferSize mags))
    rw [findPeaks]
    exact hs.imp (fun h => of_decide_eq_true h)

/-- Witness for C5 on a concrete spectrum: the sortedness conjunct and the
membership conjunct instantiated at bin 1. -/
theorem findPeaks_membership_and_sorted_witness :
    List.Pairwise (fun a b : Peak => b.magnitude ≤ a.magnitude)
      (findPeaks 6 [1, 1, 1] (-30) 1) :=
  (findPeaks_membership_and_sorted 6 [1, 1, 1] (-30) 1).2

end ClaimTheoremsG

section ClaimTheoremsH

open FFTAnalyzer

/-- C5 counterexample to the claim as stated, in two parts. On the flat
spectrum, bin 1 is returned by findPeaks although it does not strictly
dominate its equal neighbors, so the returned set is not the strictly
dominant one. On the decaying spectrum, bin 0 exceeds the threshold and
strictly dominates every existing bin within distance 1, yet findPeaks
never returns a bin closer than minDistance to the spectrum edge. -/
theorem findPeaks_strict_dominance_counterexample :
    (∃ p ∈ findPeaks 6 [1, 1, 1] (-30) 1, p.binIndex = 1) ∧
    ¬ strictPeakSpec [1, 1, 1] (-30) 1 1 ∧
    strictPeakSpec [1, 1 / 10, 1 / 10] (-30) 1 0 ∧
    (∀ p ∈ findPeaks 6 [1, 1 / 10, 1 / 10] (-30) 1, p.binIndex ≠ 0) := by
  classical
  refine ⟨?_, ?_, ?_, ?_⟩
  · refine ⟨mkPeak 6 [1, 1, 1] 1, ?_, rfl⟩
    rw [findPeaks, List.mem_mergeSort]
    refine List.mem_map.mpr ⟨1, List.mem_filter.mpr ⟨by simp, decide_eq_true ?_⟩, rfl⟩
    refine ⟨le_refl 1, by simp, ?_, ?_⟩
    · rw [getMagnitudeDB_of_one [1, 1, 1] 1 rfl]
      norm_num
    · intro k hk hkne
      have h11 : (1 + k - 1 : ℕ) = k := by omega
      rw [h11, getMagnitudeDB_of_one [1, 1, 1] 1 rfl]
      interval_cases k
      · rw [getMagnitudeDB_of_one [1, 1, 1] 0 rfl]
      · exact absurd rfl hkne
      · rw [getMagnitudeDB_of_one [1, 1, 1] 2 rfl]
  · intro hspec
    have hdom := hspec.2.2 (-1) (by norm_num) (by decide) (by norm_num) (by simp)
    have ht : ((1 : ℕ) + (-1 : ℤ)).toNat = 0 := by decide
    rw [ht, getMagnitudeDB_of_one [1, 1, 1] 0 rfl,
      getMagnitudeDB_of_one [1, 1, 1] 1 rfl] at hdom
    exact lt_irrefl 0 hdom
  · refine ⟨by simp, ?_, ?_⟩
    · rw [getMagnitudeDB_of_one [1, 1 / 10, 1 / 10] 0 rfl]
      norm_num
    · intro j hj0 hjabs hge hlt
      have hj1 : j = 1 := by omega
      subst hj1
      have ht : (((0 : ℕ) : ℤ) + 1).toNat = 1 := by decide
      rw [ht, getMagnitudeDB_of_tenth [1, 1 / 10, 1 / 10] 1 rfl, getMagnitudeDB_of_one [1, 1 / 10, 1 / 10] 0 rfl]
      norm_num
  · intro p hp
    rw [findPeaks, List.mem_mergeSort] at hp
    obtain ⟨j, hj, rfl⟩ := List.mem_map.mp hp
    have hpk := of_decide_eq_true (List.mem_filter.mp hj).2
    intro h0
    have hj0 : j = 0 := by simpa [mkPeak] using h0
    have := hpk.1
    omega

end ClaimTheoremsH

section ClaimTheoremsI

open AcousticSimulator

/-- C3 (amended): a registered source contributes during the closed window
from startTime to startTime plus duration: the update-loop guard admits a
source exactly when startTime is at most the step time and the step time is
at most startTime plus every finite duration, so at the endpoint
startTime + duration the source is still active; an inactive source adds
nothing to the scratch source grid. -/
theorem sourceActive_closed_window (width height : ℕ) (s : Source) (t : ℝ) :
    (sourceActive s t ↔
      (s.startTime ≤ t ∧ ∀ d : ℝ, s.duration = some d → t ≤ s.startTime + d)) ∧
    (¬ sourceActive s t →
      updateSources width height [s] t = zeroGrid width height) := by
  classical
  constructor
  · rcases hd : s.duration with _ | d
    · simp [sourceActive, expired, hd, sub_nonneg, not_lt]
    · simp only [sourceActive, expired, hd, not_or, not_lt, sub_nonneg,
        Option.some.injEq]
      constructor
      · rintro ⟨h1, h2⟩
        exact ⟨h1, fun d2 hd2 => by rw [← hd2]; linarith⟩
      · rintro ⟨h1, h2⟩
        exact ⟨h1, by have := h2 d rfl; linarith⟩
  · intro hna
    simp [updateSources, hna]

/-- Unit point source lasting one second from time zero at a quarter hertz,
used by the concrete instances below. -/
noncomputable def endpointSource : Source :=
  { kind := SourceKind.point 0 0, frequency := 1 / 4, amplitude := 1,
    startTime := 0, duration := some 1, phase := 0 }

/-- Witness for C3 inside the window of a one-second point source. -/
theorem sourceActive_closed_window_witness :
    sourceActive endpointSource (1 / 2) := by
  refine ((sourceActive_closed_window 1 1 endpointSource (1 / 2)).1).mpr
    ⟨by norm_num [endpointSource], ?_⟩
  intro d hd
  simp only [endpointSource, Option.some.injEq] at hd
  simp only [endpointSource]
  rw [← hd]
  norm_num

/-- C3 counterexample to the half-open window of the claim: at the exact
endpoint time startTime + duration = 1 of this one-second unit point source,
the update loop still evaluates its waveform sin(2 pi t / 4) = 1 and splats
it, so the scratch grid cell holds 1 rather than nothing. -/
theorem updateSources_endpoint_contribution :
    updateSources 1 1 [endpointSource]
      (endpointSource.startTime + 1) 0 0 = 1 := by
  classical
  have h01 : endpointSource.startTime + 1 = (1 : ℝ) := by
    simp [endpointSource]
  rw [h01]
  have hact : sourceActive endpointSource 1 := by
    rw [sourceActive]
    simp only [endpointSource, expired]
    push_neg
    norm_num
  rw [updateSources]
  simp only [List.foldl, if_pos hact]
  have harg : 2 * Real.pi * (1 / 4) * 1 + 0 = Real.pi / 2 := by ring
  simp only [endpointSource, sourceContribution, bump, zeroGrid, harg,
    Real.sin_pi_div_two]
  norm_num

end ClaimTheoremsI

namespace AcousticSimulator

/-- A fold whose step never decreases the accumulator is bounded below by its
initial value. -/
theorem foldl_step_mono {ι : Type} (l : List ι) (S : ℝ → ι → ℝ)
    (hmono : ∀ a i, a ≤ S a i) (a : ℝ) : a ≤ l.foldl S a := by
  induction l generalizing a with
  | nil => exact le_refl a
  | cons hd tl ih => exact le_trans (hmono a hd) (ih (S a hd))

/-- A fold whose step preserves an upper bound stays below that bound. -/
theorem foldl_le_bound {ι : Type} (l : List ι) (S : ℝ → ι → ℝ) (B : ℝ)
    (hb : ∀ a i, a ≤ B → S a i ≤ B) (a : ℝ) (ha : a ≤ B) : l.foldl S a ≤ B := by
  induction l generalizing a with
  | nil => exact ha
  | cons hd tl ih => exact ih (S a hd) (hb a hd ha)

/-- Initial value bound for a real running maximum fold. -/
theorem le_foldl_max_r {ι : Type} (l : List ι) (f : ι → ℝ) (a : ℝ) :
    a ≤ l.foldl (fun acc i => max acc (f i)) a :=
  foldl_step_mono l (fun acc i => max acc (f i)) (fun a2 i => le_max_left a2 (f i)) a

/-- Member bound for a real running maximum fold. -/
theorem mem_le_foldl_max_r {ι : Type} (l : List ι) (f : ι → ℝ) (a : ℝ) (x : ι)
    (hx : x ∈ l) : f x ≤ l.foldl (fun acc i => max acc (f i)) a := by
  induction l generalizing a with
  | nil => cases hx
  | cons hd tl ih =>
    rcases List.mem_cons.mp hx with h | h
    · subst h
      exact le_trans (le_max_right a (f x))
        (le_foldl_max_r tl f (max a (f x)))
    · exact ih (max a (f hd)) h

/-- The recomputed maximum pressure statistic is nonnegative. -/
theorem maxAbsGrid_nonneg {width height : ℕ} (g : Grid width height) :
    0 ≤ maxAbsGrid g := by
  rw [maxAbsGrid]
  exact foldl_step_mono _ _ (fun a y => le_foldl_max_r _ _ a) 0

/-- Every cell magnitude is below the recomputed maximum pressure. -/
theorem le_maxAbsGrid {width height : ℕ} (g : Grid width height) (y : Fin height)
    (x : Fin width) : |g y x| ≤ maxAbsGrid g := by
  obtain ⟨l1, l2, hsplit⟩ := List.append_of_mem (List.mem_finRange y)
  rw [maxAbsGrid, hsplit, List.foldl_append, List.foldl_cons]
  refine le_trans
    (mem_le_foldl_max_r (List.finRange width) (fun x2 => |g y x2|) _ x
      (List.mem_finRange x))
    (foldl_step_mono l2
      (fun acc y2 => (List.finRange width).foldl (fun a2 x2 => max a2 |g y2 x2|) acc)
      (fun a2 y2 => le_foldl_max_r (List.finRange width) (fun x2 => |g y2 x2|) a2) _)

/-- The recomputed maximum pressure is below any bound dominating every cell
magnitude. -/
theorem maxAbsGrid_le {width height : ℕ} (g : Grid width height) (B : ℝ)
    (hB : 0 ≤ B) (hcell : ∀ y x, |g y x| ≤ B) : maxAbsGrid g ≤ B := by
  rw [maxAbsGrid]
  refine foldl_le_bound _ _ B (fun a y ha => ?_) 0 hB
  exact foldl_le_bound _ _ B (fun a2 x ha2 => max_le ha2 (hcell y x)) a ha

/-- A source list whose members are all inactive at the step time leaves the
scratch source grid at zero. -/
theorem updateSources_inactive (width height : ℕ) (sources : List Source) (t : ℝ)
    (hs : ∀ s ∈ sources, ¬ sourceActive s t) :
    updateSources width height sources t = zeroGrid width height := by
  classical
  rw [updateSources]
  have key : ∀ (l : List Source) (acc : Grid width height),
      (∀ s ∈ l, ¬ sourceActive s t) →
      l.foldl (fun acc2 s =>
        if sourceActive s t then
          fun y x => acc2 y x + sourceContribution width height s t y x
        else acc2) acc = acc := by
    intro l
    induction l with
    | nil => intro acc _; rfl
    | cons hd tl ih =>
      intro acc hl
      rw [List.foldl_cons, if_neg (hl hd (List.mem_cons_self hd tl))]
      exact ih acc (fun s hsm => hl s (List.mem_cons_of_mem hd hsm))
  exact key sources (zeroGrid width height) hs

end AcousticSimulator

section ClaimTheoremsJ

open AcousticSimulator

/-- C7 (amended): with no source active at the step time, the recomputed
maximum pressure after one step is bounded by dampingFactor times
((2 + 8 coeff) maxPressure + prevMax), where maxPressure and prevMax bound
the two live buffers, so a damping factor below 1 shrinks this envelope; the
stronger monotone statement of the claim, that maxPressure never increases
from one step to the next, does not hold for the update rule, as the
counterexample shows. -/
theorem step_maxPressure_bound {width height : ℕ} (st : SimState width height)
    (t : ℝ) (hd : 0 ≤ st.dampingFactor) (hc : 0 ≤ st.coeff)
    (hs : ∀ s ∈ st.sources, ¬ sourceActive s t) :
    (step st t).maxPressure ≤
      st.dampingFactor *
        ((2 + 8 * st.coeff) * maxAbsGrid st.pressure + maxAbsGrid st.pressurePrev) := by
  have hzero := updateSources_inactive width height st.sources t hs
  have hM : 0 ≤ maxAbsGrid st.pressure := maxAbsGrid_nonneg st.pressure
  have hM0 : 0 ≤ maxAbsGrid st.pressurePrev := maxAbsGrid_nonneg st.pressurePrev
  have hB : 0 ≤ st.dampingFactor *
      ((2 + 8 * st.coeff) * maxAbsGrid st.pressure + maxAbsGrid st.pressurePrev) := by
    apply mul_nonneg hd
    apply add_nonneg _ hM0
    apply mul_nonneg (by linarith) hM
  have hstep : (step st t).maxPressure = maxAbsGrid (fun y x =>
      (2 * st.pressure y x - st.pressurePrev y x +
        st.coeff * laplacian st.pressure x y +
        updateSources width height st.sources t y x) * st.dampingFactor) := rfl
  rw [hstep, hzero]
  refine maxAbsGrid_le _ _ hB ?_
  intro y x
  have hp := abs_le.mp (le_maxAbsGrid st.pressure y x)
  have hpp := abs_le.mp (le_maxAbsGrid st.pressurePrev y x)
  have hlap : |laplacian st.pressure x y| ≤ 8 * maxAbsGrid st.pressure := by
    rw [laplacian]
    have hup : ∀ (v : ℝ), |v| ≤ maxAbsGrid st.pressure →
        -maxAbsGrid st.pressure ≤ v ∧ v ≤ maxAbsGrid st.pressure := fun v hv => abs_le.mp hv
    have h1 : |(if h1 : 0 < (y : Fin height).val then
        st.pressure ⟨y.val - 1, by omega⟩ x else 0)| ≤ maxAbsGrid st.pressure := by
      split
      · exact le_maxAbsGrid st.pressure _ x
      · simpa using hM
    have h2 : |(if h2 : (y : Fin height).val + 1 < height then
        st.pressure ⟨y.val + 1, h2⟩ x else 0)| ≤ maxAbsGrid st.pressure := by
      split
      · exact le_maxAbsGrid st.pressure _ x
      · simpa using hM
    have h3 : |(if h3 : 0 < (x : Fin width).val then
        st.pressure y ⟨x.val - 1, by omega⟩ else 0)| ≤ maxAbsGrid st.pressure := by
      split
      · exact le_maxAbsGrid st.pressure y _
      · simpa using hM
    have h4 : |(if h4 : (x : Fin width).val + 1 < width then
        st.pressure y ⟨x.val + 1, h4⟩ else 0)| ≤ maxAbsGrid st.pressure := by
      split
      · exact le_maxAbsGrid st.pressure y _
      · simpa using hM
    obtain ⟨h1a, h1b⟩ := abs_le.mp h1
    obtain ⟨h2a, h2b⟩ := abs_le.mp h2
    obtain ⟨h3a, h3b⟩ := abs_le.mp h3
    obtain ⟨h4a, h4b⟩ := abs_le.mp h4
    refine abs_le.mpr ⟨by linarith [hp.1, hp.2], by linarith [hp.1, hp.2]⟩
  obtain ⟨hla, hlb⟩ := abs_le.mp hlap
  have hcl : st.coeff * laplacian st.pressure x y ≤
      st.coeff * (8 * maxAbsGrid st.pressure) := by
    exact mul_le_mul_of_nonneg_left hlb hc
  have hcl2 : st.coeff * (-(8 * maxAbsGrid st.pressure)) ≤
      st.coeff * laplacian st.pressure x y := by
    exact mul_le_mul_of_nonneg_left (by linarith) hc
  have hinner : |2 * st.pressure y x - st.pressurePrev y x +
      st.coeff * laplacian st.pressure x y + zeroGrid width height y x| ≤
      (2 + 8 * st.coeff) * maxAbsGrid st.pressure + maxAbsGrid st.pressurePrev := by
    have hz : zeroGrid width height y x = 0 := rfl
    rw [hz]
    refine abs_le.mpr ⟨?_, ?_⟩ <;> nlinarith [hp.1, hp.2, hpp.1, hpp.2]
  calc |(2 * st.pressure y x - st.pressurePrev y x +
        st.coeff * laplacian st.pressure x y + zeroGrid width height y x) *
        st.dampingFactor|
      = |2 * st.pressure y x - st.pressurePrev y x +
        st.coeff * laplacian st.pressure x y + zeroGrid width height y x| *
        st.dampingFactor := by
        rw [abs_mul, abs_of_nonneg hd]
    _ ≤ ((2 + 8 * st.coeff) * maxAbsGrid st.pressure + maxAbsGrid st.pressurePrev) *
        st.dampingFactor := by
        exact mul_le_mul_of_nonneg_right hinner hd
    _ = st.dampingFactor *
        ((2 + 8 * st.coeff) * maxAbsGrid st.pressure + maxAbsGrid st.pressurePrev) := by
        ring

end ClaimTheoremsJ

namespace AcousticSimulator

/-- One-cell solver state with damping 0.9995, coefficient 0.01, a unit
pressure field, a zero previous field and no sources. -/
noncomputable def dampedState : SimState 1 1 :=
  { cellSize := 1
    speedOfSound := 1
    airDensity := 1
    timeStep := 1
    coeff := 1 / 100
    dampingFactor := 9995 / 10000
    pressure := fun _ _ => 1
    pressurePrev := zeroGrid 1 1
    velocityX := zeroGrid 1 1
    velocityY := zeroGrid 1 1
    sources := []
    time := 0
    maxPressure := 1
    energyContent := 0 }

end AcousticSimulator

section ClaimTheoremsK

open AcousticSimulator

/-- Witness for C7 on the one-cell damped state with no sources. -/
theorem step_maxPressure_bound_witness :
    (step dampedState 0).maxPressure ≤
      dampedState.dampingFactor *
        ((2 + 8 * dampedState.coeff) * maxAbsGrid dampedState.pressure +
          maxAbsGrid dampedState.pressurePrev) :=
  step_maxPressure_bound dampedState 0
    (by norm_num [dampedState]) (by norm_num [dampedState]) (by simp [dampedState])

/-- C7 counterexample to the claim as stated: on this one-cell state with
damping 0.9995 below 1, no sources and a nonzero initial field, the
recomputed maximum pressure grows from about 1.959 after the first step to
about 2.838 after the second, so maxPressure is not non-increasing across
successive steps, far beyond floating tolerance. -/
theorem step_maxPressure_increases :
    dampedState.dampingFactor < 1 ∧
    dampedState.sources = [] ∧
    maxAbsGrid dampedState.pressure ≠ 0 ∧
    (step dampedState 0).maxPressure < (step (step dampedState 0) 1).maxPressure := by
  have key : ∀ a b : ℝ, 0 < a → a < b → max 0 |a| < max 0 |b| := by
    intro a b ha hab
    rw [abs_of_pos ha, abs_of_pos (lt_trans ha hab), max_eq_right ha.le,
      max_eq_right (lt_trans ha hab).le]
    exact hab
  refine ⟨by norm_num [dampedState], rfl, ?_, ?_⟩
  · show max 0 |(1 : ℝ)| ≠ 0
    norm_num
  · have h1 : (step dampedState 0).maxPressure =
        max 0 |(2 * 1 - 0 + 1 / 100 * (0 + 0 + 0 + 0 - 4 * 1) + 0) *
          (9995 / 10000 : ℝ)| := rfl
    have h2 : (step (step dampedState 0) 1).maxPressure =
        max 0 |(2 * ((2 * 1 - 0 + 1 / 100 * (0 + 0 + 0 + 0 - 4 * 1) + 0) *
            (9995 / 10000 : ℝ)) - 1 +
          1 / 100 * (0 + 0 + 0 + 0 -
            4 * ((2 * 1 - 0 + 1 / 100 * (0 + 0 + 0 + 0 - 4 * 1) + 0) *
              (9995 / 10000))) + 0) * (9995 / 10000)| := rfl
    rw [h1, h2]
    exact key _ _ (by norm_num) (by norm_num)

end ClaimTheoremsK

section ClaimTheoremsL

open AcousticSimulator

/-- C8 (amended): on every grid, including minimal ones, the Fin-indexed
stencil of step reads no out-of-range cell, and the 5-point Laplacian equals
the stencil of the zero extension of the grid, so edge cells see zero
pressure beyond the boundary; the velocity gradient however zeroes the whole
forward difference at the far boundary, so far-edge cells get velocity
component zero rather than a difference against a zero virtual neighbor. -/
theorem laplacian_extendZero_boundary {width height : ℕ} (g : Grid width height)
    (y : Fin height) (x : Fin width) :
    laplacian g x y =
      extendZero g ((y.val : ℤ) - 1) (x.val : ℤ) +
      extendZero g ((y.val : ℤ) + 1) (x.val : ℤ) +
      extendZero g (y.val : ℤ) ((x.val : ℤ) - 1) +
      extendZero g (y.val : ℤ) ((x.val : ℤ) + 1) - 4 * g y x ∧
    (∀ airDensity cellSize : ℝ, x.val + 1 = width →
      calcVelocityX airDensity cellSize g y x = 0) ∧
    (∀ airDensity cellSize : ℝ, y.val + 1 = height →
      calcVelocityY airDensity cellSize g y x = 0) := by
  have hxw : x.val < width := x.isLt
  have hyh : y.val < height := y.isLt
  refine ⟨?_, ?_, ?_⟩
  · rw [laplacian]
    have t1 : (if h1 : 0 < y.val then g ⟨y.val - 1, by omega⟩ x else 0) =
        extendZero g ((y.val : ℤ) - 1) (x.val : ℤ) := by
      rw [extendZero]
      by_cases hy : 0 < y.val
      · rw [dif_pos hy, dif_pos (by omega), dif_pos (by omega)]
        congr 1 <;> apply Fin.ext <;> simp <;> omega
      · rw [dif_neg hy, dif_neg (by omega)]
    have t2 : (if h2 : y.val + 1 < height then g ⟨y.val + 1, h2⟩ x else 0) =
        extendZero g ((y.val : ℤ) + 1) (x.val : ℤ) := by
      rw [extendZero]
      by_cases hy : y.val + 1 < height
      · rw [dif_pos hy, dif_pos (by omega), dif_pos (by omega)]
        congr 1 <;> apply Fin.ext <;> simp <;> omega
      · rw [dif_neg hy, dif_neg (by omega)]
    have t3 : (if h3 : 0 < x.val then g y ⟨x.val - 1, by omega⟩ else 0) =
        extendZero g (y.val : ℤ) ((x.val : ℤ) - 1) := by
      rw [extendZero]
      by_cases hx : 0 < x.val
      · rw [dif_pos hx, dif_pos (by omega), dif_pos (by omega)]
        congr 1 <;> apply Fin.ext <;> simp <;> omega
      · rw [dif_neg hx, dif_pos (by omega), dif_neg (by omega)]
    have t4 : (if h4 : x.val + 1 < width then g y ⟨x.val + 1, h4⟩ else 0) =
        extendZero g (y.val : ℤ) ((x.val : ℤ) + 1) := by
      rw [extendZero]
      by_cases hx : x.val + 1 < width
      · rw [dif_pos hx, dif_pos (by omega), dif_pos (by omega)]
        congr 1 <;> apply Fin.ext <;> simp <;> omega
      · rw [dif_neg hx, dif_pos (by omega), dif_neg (by omega)]
    rw [t1, t2, t3, t4]
  · intro airDensity cellSize hxb
    show (fun y2 x2 =>
      let dpDx := (if h : x2.val + 1 < width then g y2 ⟨x2.val + 1, h⟩ - g y2 x2 else 0);
      -dpDx / (airDensity * cellSize)) y x = 0
    simp only
    rw [dif_neg (by omega)]
    norm_num
  · intro airDensity cellSize hyb
    show (fun y2 x2 =>
      let dpDy := (if h : y2.val + 1 < height then g ⟨y2.val + 1, h⟩ x2 - g y2 x2 else 0);
      -dpDy / (airDensity * cellSize)) y x = 0
    simp only
    rw [dif_neg (by omega)]
    norm_num

end ClaimTheoremsL

section ClaimTheoremsM

open AcousticSimulator

/-- Witness for C8 on a 2 by 2 unit grid at the far-right cell. -/
theorem laplacian_extendZero_boundary_witness :
    calcVelocityX 1 1 (fun _ _ => (1 : ℝ) : Grid 2 2) 0 1 = 0 :=
  (laplacian_extendZero_boundary (fun _ _ => (1 : ℝ) : Grid 2 2) 0 1).2.1 1 1 rfl

/-- C8 counterexample to the velocity reading of the claim: on a 2 by 2 unit
pressure grid with unit density and cell size, the far-right cell gets
velocity component zero from the code, while substituting a zero pressure
neighbor beyond the boundary as the claim asserts would give
-(0 - 1) / 1 = 1. -/
theorem velocity_boundary_counterexample :
    calcVelocityX 1 1 (fun _ _ => (1 : ℝ) : Grid 2 2) 0 1 = 0 ∧
    velocityXSpec 1 1 (fun _ _ => (1 : ℝ) : Grid 2 2) 0 1 = 1 := by
  constructor
  · simp only [calcVelocityX]
    rw [dif_neg (by decide)]
    norm_num
  · simp only [velocityXSpec]
    rw [extendZero, dif_pos (by decide), dif_neg (by decide)]
    norm_num

end ClaimTheoremsM
